import Mathlib

/-!
Verification of the recipe-app-api core: an ownership-scoped CRUD surface
over Recipe and Tag entities.  The view logic is embedded from
`app/recipe/views.py` (`RecipeViewSet.get_queryset`,
`RecipeViewSet.get_serializer_class`, `RecipeViewSet.perform_create`);
the entity models, the serializers and the tag view set are repository
components whose sources are not in the snapshot, so they are modelled
from the specification (each such definition says so in its doc comment).
Principals are identified by their user id (a `Nat`); the opaque
authentication capability is an `Option Nat`: `some u` is a valid
credential resolving to principal `u`, `none` is an absent or invalid one.
The decimal `price` is carried as an integer number of cents.
-/

namespace RecipeApp

/-- Modelled from the spec: a Recipe row of the entity store
(`core.models.Recipe`, not in the snapshot): owner foreign key `user`,
attributes title, description (optional, blank default), time_minutes,
price (decimal, as cents), link (optional, blank default), and a
many-to-many relation to tags (by tag id). -/
structure Recipe where
  id : Nat
  user : Nat
  title : String
  description : String
  time_minutes : Int
  price : Int
  link : String
  tags : List Nat
  deriving DecidableEq, Repr

/-- Modelled from the spec: a Tag row of the entity store
(`core.models.Tag`, not in the snapshot): owner foreign key `user` and a
name. -/
structure Tag where
  id : Nat
  user : Nat
  name : String
  deriving DecidableEq, Repr

/-- The entity store: all persisted Recipe and Tag rows plus the insertion
identifier counters the store uses to assign fresh primary keys. -/
structure Store where
  recipes : List Recipe
  tags : List Tag
  nextRecipeId : Nat
  nextTagId : Nat
  deriving DecidableEq, Repr

/-- Store well-formedness: primary keys are unique and below the
next-id counter (what a relational store guarantees by construction). -/
def Store.wf (s : Store) : Prop :=
  (∀ r ∈ s.recipes, r.id < s.nextRecipeId) ∧
  s.recipes.Pairwise (fun a b => a.id ≠ b.id) ∧
  (∀ t ∈ s.tags, t.id < s.nextTagId) ∧
  s.tags.Pairwise (fun a b => a.id ≠ b.id)

instance (s : Store) : Decidable s.wf := by
  unfold Store.wf; infer_instance

/-- A write payload for a recipe: each key is optionally present.
The `user` key models a client attempt to set the owner. -/
structure RecipePayload where
  title : Option String
  description : Option String
  time_minutes : Option Int
  price : Option Int
  link : Option String
  user : Option Nat
  deriving DecidableEq, Repr

/-- A write payload for a tag. -/
structure TagPayload where
  name : Option String
  user : Option Nat
  deriving DecidableEq, Repr

/-- Modelled from the spec: deserializing a write payload silently drops
any `user`/owner key before validation (serializers not in the snapshot). -/
def RecipePayload.dropOwner (p : RecipePayload) : RecipePayload :=
  { p with user := none }

/-- Modelled from the spec: the tag serializer likewise drops the owner
key before validation. -/
def TagPayload.dropOwner (p : TagPayload) : TagPayload :=
  { p with user := none }

/-- Structural prefix test on character lists, kept structurally
recursive so that concrete payloads evaluate. -/
def charsPrefix : List Char → List Char → Bool
  | [], _ => true
  | _ :: _, [] => false
  | a :: as, b :: bs => if a = b then charsPrefix as bs else false

/-- Modelled from the spec: field validation rejects malformed URLs for
`link` (the serializer's URL field, not in the snapshot).  The spec
mandates the rejection but leaves the URL grammar open; here a
well-formed URL is one carrying an http or https scheme prefix. -/
def validUrl (s : String) : Bool :=
  charsPrefix "http://".data s.data || charsPrefix "https://".data s.data

/-- Modelled from the spec: field validation rejects negative
time_minutes or price, and malformed URLs for link; keys absent from the
payload are not checked. -/
def RecipePayload.valuesValid (p : RecipePayload) : Bool :=
  (match p.time_minutes with | some t => decide (0 ≤ t) | none => true) &&
  (match p.price with | some v => decide (0 ≤ v) | none => true) &&
  (match p.link with | some l => validUrl l | none => true)

/-- Modelled from the spec: the required (non-optional) recipe fields are
title, time_minutes and price; description and link are optional. -/
def RecipePayload.requiredPresent (p : RecipePayload) : Bool :=
  p.title.isSome && p.time_minutes.isSome && p.price.isSome

/-- Modelled from the spec: a tag's only attribute `name` is required on
full writes. -/
def TagPayload.requiredPresent (p : TagPayload) : Bool :=
  p.name.isSome

/-- Update merge: apply only the keys present in the payload onto the
existing row; the primary key and the owner are never touched. -/
def applyRecipePayload (r : Recipe) (p : RecipePayload) : Recipe :=
  { r with
    title := p.title.getD r.title
    description := p.description.getD r.description
    time_minutes := p.time_minutes.getD r.time_minutes
    price := p.price.getD r.price
    link := p.link.getD r.link }

/-- Update merge for tags. -/
def applyTagPayload (t : Tag) (p : TagPayload) : Tag :=
  { t with name := p.name.getD t.name }

/-- Build the row inserted by create: owner forcibly set to the
requesting principal, fresh id from the store counter, optional fields
defaulting to blank. -/
def recipeFromPayload (owner id : Nat) (p : RecipePayload) : Recipe :=
  { id := id
    user := owner
    title := p.title.getD ""
    description := p.description.getD ""
    time_minutes := p.time_minutes.getD 0
    price := p.price.getD 0
    link := p.link.getD ""
    tags := [] }

/-! ### Descending sort (the store's `order_by` of a minus-prefixed key) -/

/-- Insert `a` into `l` before the first element it strictly dominates. -/
def insertDesc (gt : α → α → Bool) (a : α) : List α → List α
  | [] => [a]
  | b :: l => if gt a b then a :: b :: l else b :: insertDesc gt a l

/-- Insertion sort into descending order with respect to `gt`. -/
def sortDesc (gt : α → α → Bool) : List α → List α
  | [] => []
  | a :: l => insertDesc gt a (sortDesc gt l)

/-- Structural lexicographic comparison of character lists: the collation
the store uses when ordering by a string key, kept structurally recursive
so that concrete stores evaluate. -/
def charsLtb : List Char → List Char → Bool
  | [], [] => false
  | [], _ :: _ => true
  | _ :: _, [] => false
  | a :: as, b :: bs =>
    if a < b then true else if b < a then false else charsLtb as bs

/-- Lexicographic string comparison as a Bool. -/
def strLt (a b : String) : Bool := charsLtb a.data b.data

/-! ### Serialization layer -/

/-- Modelled from the spec: the summary wire shape of a recipe
(`recipe.serializers.RecipeSerializer`, not in the snapshot): id plus
minimal display fields, no description, never the owner. -/
structure RecipeSummaryView where
  id : Nat
  title : String
  time_minutes : Int
  price : Int
  link : String
  deriving DecidableEq, Repr

/-- Modelled from the spec: the detail wire shape of a recipe
(`recipe.serializers.RecipeDetailSerializer`, not in the snapshot): the
full field set including description and tag associations, never the
owner. -/
structure RecipeDetailView where
  id : Nat
  title : String
  time_minutes : Int
  price : Int
  link : String
  description : String
  tags : List Nat
  deriving DecidableEq, Repr

/-- Modelled from the spec: the tag wire shape
(`recipe.serializers.TagSerializer`, not in the snapshot): id and name,
never the owner. -/
structure TagView where
  id : Nat
  name : String
  deriving DecidableEq, Repr

/-- Render a recipe with the summary serializer. -/
def RecipeSerializer (r : Recipe) : RecipeSummaryView :=
  { id := r.id, title := r.title, time_minutes := r.time_minutes
    price := r.price, link := r.link }

/-- Render a recipe with the detail serializer. -/
def RecipeDetailSerializer (r : Recipe) : RecipeDetailView :=
  { id := r.id, title := r.title, time_minutes := r.time_minutes
    price := r.price, link := r.link, description := r.description
    tags := r.tags }

/-- Render a tag. -/
def TagSerializer (t : Tag) : TagView :=
  { id := t.id, name := t.name }

/-- Persist an updated recipe row: replace the row with the given
primary key by the new value. -/
def updateRow (l : List Recipe) (rid : Nat) (r' : Recipe) : List Recipe :=
  l.map (fun q => if q.id == rid then r' else q)

/-- Persist an updated tag row. -/
def updateTagRow (l : List Tag) (rid : Nat) (t' : Tag) : List Tag :=
  l.map (fun q => if q.id == rid then t' else q)

/-! ### Request handlers -/

/-- Outcome statuses of the handler state machine (HTTP codes). -/
inductive Status
  | ok200
  | created201
  | noContent204
  | badRequest400
  | unauthorized401
  | forbidden403
  | notFound404
  deriving DecidableEq, Repr

/-- Response bodies, by wire shape. -/
inductive Body
  | empty
  | recipeList (l : List RecipeSummaryView)
  | recipeDetail (v : RecipeDetailView)
  | tagList (l : List TagView)
  | tagDetail (v : TagView)
  deriving DecidableEq, Repr

/-- The operations a view set can serve (the DRF action of the request;
`put` is DRF's `update`, `patch` is DRF's `partial_update`). -/
inductive Action
  | list
  | retrieve
  | create
  | put
  | patch
  | destroy
  deriving DecidableEq, Repr

/-- Serializer classes the recipe view set can select. -/
inductive SerializerClass
  | summary
  | detail
  deriving DecidableEq, Repr

namespace RecipeViewSet

/-- `RecipeViewSet.get_queryset`: return recipes for the authenticated
user — `self.queryset.filter(user=self.request.user).order_by('-id')`. -/
def get_queryset (u : Nat) (s : Store) : List Recipe :=
  sortDesc (fun a b => decide (b.id < a.id))
    (s.recipes.filter (fun r => r.user == u))

/-- `RecipeViewSet.get_serializer_class`: the summary serializer for the
list action, the detail serializer (the class default) otherwise. -/
def get_serializer_class (a : Action) : SerializerClass :=
  if a = Action.list then SerializerClass.summary else SerializerClass.detail

/-- A request: the outcome of the opaque authentication capability
(`none` when the token is absent or invalid), the action, the target id
for detail routes, and the payload for writes. -/
structure Request where
  auth : Option Nat
  action : Action
  rid : Nat := 0
  payload : RecipePayload := ⟨none, none, none, none, none, none⟩

/-- Look the target up in the owner-scoped queryset (DRF `get_object`
resolves the detail route against `get_queryset`; a miss is 404). -/
def lookup (u : Nat) (rid : Nat) (s : Store) : Option Recipe :=
  (get_queryset u s).find? (fun r => r.id == rid)

/-- List: 200 with the owner-scoped queryset rendered by the summary
serializer; the store is untouched. -/
def listOp (u : Nat) (s : Store) : Status × Body × Store :=
  (Status.ok200, Body.recipeList ((get_queryset u s).map RecipeSerializer), s)

/-- Retrieve: 200 with the detail rendering, or 404 on an owner-scope
miss. -/
def retrieveOp (u : Nat) (rid : Nat) (s : Store) : Status × Body × Store :=
  match lookup u rid s with
  | none => (Status.notFound404, Body.empty, s)
  | some r => (Status.ok200, Body.recipeDetail (RecipeDetailSerializer r), s)

/-- Create: the serializer drops the owner key and validates; on success
`perform_create` saves with `user=self.request.user` and the store
assigns the next insertion identifier; 201 with the detail rendering. -/
def createOp (u : Nat) (p0 : RecipePayload) (s : Store) :
    Status × Body × Store :=
  let p := p0.dropOwner
  if p.requiredPresent && p.valuesValid then
    let r := recipeFromPayload u s.nextRecipeId p
    (Status.created201, Body.recipeDetail (RecipeDetailSerializer r),
      { s with recipes := s.recipes ++ [r], nextRecipeId := s.nextRecipeId + 1 })
  else (Status.badRequest400, Body.empty, s)

/-- Update (PUT when `full`, PATCH otherwise): resolve the target in the
owner scope (404 on a miss), drop the owner key, validate (a full update
additionally requires every required field), then merge only the supplied
keys onto the row and persist; 200 with the detail rendering. -/
def updateOp (u : Nat) (rid : Nat) (p0 : RecipePayload) (full : Bool)
    (s : Store) : Status × Body × Store :=
  match lookup u rid s with
  | none => (Status.notFound404, Body.empty, s)
  | some r =>
    let p := p0.dropOwner
    if (!full || p.requiredPresent) && p.valuesValid then
      let r' := applyRecipePayload r p
      (Status.ok200, Body.recipeDetail (RecipeDetailSerializer r'),
        { s with recipes := updateRow s.recipes rid r' })
    else (Status.badRequest400, Body.empty, s)

/-- Destroy: resolve the target in the owner scope (404 on a miss), then
delete the row; 204 with an empty body. -/
def destroyOp (u : Nat) (rid : Nat) (s : Store) : Status × Body × Store :=
  match lookup u rid s with
  | none => (Status.notFound404, Body.empty, s)
  | some _ =>
    (Status.noContent204, Body.empty,
      { s with recipes := s.recipes.filter (fun q => !(q.id == rid)) })

/-- The view set entry point: `TokenAuthentication` plus `IsAuthenticated`
reject an absent or invalid credential with 401 before any handler logic
runs; an authenticated request is routed by action. -/
def dispatch (req : Request) (s : Store) : Status × Body × Store :=
  match req.auth with
  | none => (Status.unauthorized401, Body.empty, s)
  | some u =>
    match req.action with
    | Action.list => listOp u s
    | Action.retrieve => retrieveOp u req.rid s
    | Action.create => createOp u req.payload s
    | Action.put => updateOp u req.rid req.payload true s
    | Action.patch => updateOp u req.rid req.payload false s
    | Action.destroy => destroyOp u req.rid s

end RecipeViewSet

namespace TagViewSet

/-- Modelled from the spec: the tag view set (not in the snapshot) is
owner-scoped like the recipe one, ordered by descending name. -/
def get_queryset (u : Nat) (s : Store) : List Tag :=
  sortDesc (fun a b => strLt b.name a.name)
    (s.tags.filter (fun t => t.user == u))

/-- A request against the tag endpoints. -/
structure Request where
  auth : Option Nat
  action : Action
  rid : Nat := 0
  payload : TagPayload := ⟨none, none⟩

/-- Owner-scoped lookup of a tag by id. -/
def lookup (u : Nat) (rid : Nat) (s : Store) : Option Tag :=
  (get_queryset u s).find? (fun t => t.id == rid)

/-- Modelled from the spec: tag list — 200 with the owner-scoped rows
rendered by the tag serializer. -/
def listOp (u : Nat) (s : Store) : Status × Body × Store :=
  (Status.ok200, Body.tagList ((get_queryset u s).map TagSerializer), s)

/-- Modelled from the spec: the repository `get(id)` for tags — the row
only if owned, else NotFound. -/
def retrieveOp (u : Nat) (rid : Nat) (s : Store) : Status × Body × Store :=
  match lookup u rid s with
  | none => (Status.notFound404, Body.empty, s)
  | some t => (Status.ok200, Body.tagDetail (TagSerializer t), s)

/-- Modelled from the spec: tag update (PUT when `full`, PATCH
otherwise) — owner-scoped resolution, owner key dropped, merge of the
supplied keys. -/
def updateOp (u : Nat) (rid : Nat) (p0 : TagPayload) (full : Bool)
    (s : Store) : Status × Body × Store :=
  match lookup u rid s with
  | none => (Status.notFound404, Body.empty, s)
  | some t =>
    let p := p0.dropOwner
    if !full || p.requiredPresent then
      let t' := applyTagPayload t p
      (Status.ok200, Body.tagDetail (TagSerializer t'),
        { s with tags := updateTagRow s.tags rid t' })
    else (Status.badRequest400, Body.empty, s)

/-- Modelled from the spec: tag destroy — owner-scoped resolution then
deletion, 204 with an empty body. -/
def destroyOp (u : Nat) (rid : Nat) (s : Store) : Status × Body × Store :=
  match lookup u rid s with
  | none => (Status.notFound404, Body.empty, s)
  | some _ =>
    (Status.noContent204, Body.empty,
      { s with tags := s.tags.filter (fun q => !(q.id == rid)) })

/-- The tag view set entry point: authentication first, then routing by
action (the tag endpoints expose list, update and destroy; retrieve is
the repository `get`). -/
def dispatch (req : Request) (s : Store) : Status × Body × Store :=
  match req.auth with
  | none => (Status.unauthorized401, Body.empty, s)
  | some u =>
    match req.action with
    | Action.list => listOp u s
    | Action.retrieve => retrieveOp u req.rid s
    | Action.create => (Status.notFound404, Body.empty, s)
    | Action.put => updateOp u req.rid req.payload true s
    | Action.patch => updateOp u req.rid req.payload false s
    | Action.destroy => destroyOp u req.rid s

end TagViewSet

/-! ### Concrete fixtures for witnesses -/

/-- A concrete recipe owned by user 2, for witnesses. -/
def rIso : Recipe :=
  ⟨1, 2, "Sample recipe", "Sample description", 22, 525,
    "http://example.com/recipe.pdf", []⟩

/-- A concrete tag owned by user 2, for witnesses. -/
def tIso : Tag := ⟨1, 2, "Test Tag"⟩

/-- A concrete store holding `rIso` and `tIso`, for witnesses. -/
def sIso : Store := ⟨[rIso], [tIso], 2, 2⟩

/-- The fully replaced concrete recipe, for the C9 witness. -/
def rFull : Recipe :=
  ⟨rIso.id, rIso.user, "New recipe title", "New recipe description", 30, 500,
    "http://example.com/new_recipe.pdf", rIso.tags⟩


/-! ### Helper lemmas -/

theorem insertDesc_perm (gt : α → α → Bool) (a : α) (l : List α) :
    List.Perm (insertDesc gt a l) (a :: l) := by
  induction l with
  | nil => exact List.Perm.refl _
  | cons b l ih =>
    by_cases h : gt a b = true
    · simp [insertDesc, h]
    · simp only [insertDesc, if_neg h]
      exact (ih.cons b).trans (List.Perm.swap a b l)

theorem sortDesc_perm (gt : α → α → Bool) (l : List α) :
    List.Perm (sortDesc gt l) l := by
  induction l with
  | nil => exact List.Perm.refl _
  | cons a l ih =>
    exact ((insertDesc_perm gt a (sortDesc gt l)).trans (ih.cons a))

theorem insertDesc_pairwise {gt : α → α → Bool} {rel : α → α → Prop}
    (hyes : ∀ a b, gt a b = true → rel a b)
    (hno : ∀ a b, gt a b = false → rel b a)
    (htrans : ∀ a b c, rel a b → rel b c → rel a c)
    (a : α) (l : List α) (hl : l.Pairwise rel) :
    (insertDesc gt a l).Pairwise rel := by
  induction l with
  | nil => simp [insertDesc]
  | cons b l ih =>
    rcases List.pairwise_cons.mp hl with ⟨hb, hl'⟩
    by_cases h : gt a b = true
    · simp only [insertDesc, if_pos h]
      refine List.pairwise_cons.mpr ⟨?_, hl⟩
      intro x hx
      rcases List.mem_cons.mp hx with hx | hx
      · exact hx ▸ hyes a b h
      · exact htrans a b x (hyes a b h) (hb x hx)
    · simp only [insertDesc, if_neg h]
      refine List.pairwise_cons.mpr ⟨?_, ih hl'⟩
      intro x hx
      have hx' := (insertDesc_perm gt a l).mem_iff.mp hx
      rcases List.mem_cons.mp hx' with hx' | hx'
      · exact hx' ▸ hno a b (Bool.not_eq_true _ ▸ h)
      · exact hb x hx'

theorem sortDesc_pairwise {gt : α → α → Bool} {rel : α → α → Prop}
    (hyes : ∀ a b, gt a b = true → rel a b)
    (hno : ∀ a b, gt a b = false → rel b a)
    (htrans : ∀ a b c, rel a b → rel b c → rel a c)
    (l : List α) : (sortDesc gt l).Pairwise rel := by
  induction l with
  | nil => simp [sortDesc]
  | cons a l ih =>
    exact insertDesc_pairwise hyes hno htrans a (sortDesc gt l) ih

theorem charsLtb_iff (as : List Char) : ∀ bs : List Char,
    (charsLtb as bs = true ↔ List.Lex (fun a b => a < b) as bs) := by
  induction as with
  | nil =>
    intro bs
    cases bs with
    | nil =>
      constructor
      · intro h
        exact absurd h (by simp [charsLtb])
      · intro h
        cases h
    | cons b bs =>
      simp only [charsLtb]
      exact ⟨fun _ => List.Lex.nil, fun _ => trivial⟩
  | cons a as ih =>
    intro bs
    cases bs with
    | nil =>
      constructor
      · intro h
        exact absurd h (by simp [charsLtb])
      · intro h
        cases h
    | cons b bs =>
      by_cases hab : a < b
      · simp only [charsLtb, if_pos hab]
        exact ⟨fun _ => List.Lex.rel hab, fun _ => trivial⟩
      · by_cases hba : b < a
        · simp only [charsLtb, if_neg hab, if_pos hba]
          constructor
          · intro h
            exact absurd h (by decide)
          · intro h
            cases h with
            | cons h' => exact absurd hba (lt_irrefl a)
            | rel h' => exact absurd h' hab
        · have heq : a = b := le_antisymm (not_lt.mp hba) (not_lt.mp hab)
          subst heq
          simp only [charsLtb, if_neg hab, if_neg hba]
          rw [ih bs]
          constructor
          · intro h
            exact List.Lex.cons h
          · intro h
            cases h with
            | cons h' => exact h'
            | rel h' => exact absurd h' hab
      
theorem strLt_iff (a b : String) : strLt a b = true ↔ a < b := by
  rw [String.lt_iff_toList_lt]
  exact charsLtb_iff a.data b.data

theorem mem_get_queryset {u : Nat} {s : Store} {r : Recipe} :
    r ∈ RecipeViewSet.get_queryset u s ↔ r ∈ s.recipes ∧ r.user = u := by
  unfold RecipeViewSet.get_queryset
  rw [(sortDesc_perm _ _).mem_iff, List.mem_filter]
  simp

theorem mem_tag_get_queryset {u : Nat} {s : Store} {t : Tag} :
    t ∈ TagViewSet.get_queryset u s ↔ t ∈ s.tags ∧ t.user = u := by
  unfold TagViewSet.get_queryset
  rw [(sortDesc_perm _ _).mem_iff, List.mem_filter]
  simp

theorem lookup_eq_some {u rid : Nat} {s : Store} {r : Recipe}
    (h : RecipeViewSet.lookup u rid s = some r) :
    r ∈ s.recipes ∧ r.user = u ∧ r.id = rid := by
  have hm := mem_get_queryset.mp (List.mem_of_find?_eq_some h)
  have hp := List.find?_some h
  simp only [beq_iff_eq] at hp
  exact ⟨hm.1, hm.2, hp⟩

theorem tag_lookup_eq_some {u rid : Nat} {s : Store} {t : Tag}
    (h : TagViewSet.lookup u rid s = some t) :
    t ∈ s.tags ∧ t.user = u ∧ t.id = rid := by
  have hm := mem_tag_get_queryset.mp (List.mem_of_find?_eq_some h)
  have hp := List.find?_some h
  simp only [beq_iff_eq] at hp
  exact ⟨hm.1, hm.2, hp⟩

theorem recipe_id_injective {s : Store} (hwf : s.wf) {q r : Recipe}
    (hq : q ∈ s.recipes) (hr : r ∈ s.recipes) (h : q.id = r.id) : q = r := by
  by_contra hne
  exact hwf.2.1.forall (fun a b hab => hab.symm) hq hr hne h

theorem tag_id_injective {s : Store} (hwf : s.wf) {q t : Tag}
    (hq : q ∈ s.tags) (ht : t ∈ s.tags) (h : q.id = t.id) : q = t := by
  by_contra hne
  exact hwf.2.2.2.forall (fun a b hab => hab.symm) hq ht hne h

theorem lookup_self {u : Nat} {s : Store} {r : Recipe} (hwf : s.wf)
    (hr : r ∈ s.recipes) (hu : r.user = u) :
    RecipeViewSet.lookup u r.id s = some r := by
  unfold RecipeViewSet.lookup
  cases hfind : (RecipeViewSet.get_queryset u s).find? (fun q => q.id == r.id) with
  | none =>
    exfalso
    have := List.find?_eq_none.mp hfind r (mem_get_queryset.mpr ⟨hr, hu⟩)
    simp at this
  | some q =>
    have hq := List.find?_some hfind
    simp only [beq_iff_eq] at hq
    have hqm := mem_get_queryset.mp (List.mem_of_find?_eq_some hfind)
    rw [recipe_id_injective hwf hqm.1 hr hq]

theorem tag_lookup_self {u : Nat} {s : Store} {t : Tag} (hwf : s.wf)
    (ht : t ∈ s.tags) (hu : t.user = u) :
    TagViewSet.lookup u t.id s = some t := by
  unfold TagViewSet.lookup
  cases hfind : (TagViewSet.get_queryset u s).find? (fun q => q.id == t.id) with
  | none =>
    exfalso
    have := List.find?_eq_none.mp hfind t (mem_tag_get_queryset.mpr ⟨ht, hu⟩)
    simp at this
  | some q =>
    have hq := List.find?_some hfind
    simp only [beq_iff_eq] at hq
    have hqm := mem_tag_get_queryset.mp (List.mem_of_find?_eq_some hfind)
    rw [tag_id_injective hwf hqm.1 ht hq]

theorem lookup_other_eq_none {u1 u2 : Nat} {s : Store} {r : Recipe}
    (hwf : s.wf) (hne : u1 ≠ u2) (hr : r ∈ s.recipes) (hu : r.user = u2) :
    RecipeViewSet.lookup u1 r.id s = none := by
  unfold RecipeViewSet.lookup
  cases hfind : (RecipeViewSet.get_queryset u1 s).find? (fun q => q.id == r.id) with
  | none => rfl
  | some q =>
    exfalso
    have hq := List.find?_some hfind
    simp only [beq_iff_eq] at hq
    have hqm := mem_get_queryset.mp (List.mem_of_find?_eq_some hfind)
    have : q = r := recipe_id_injective hwf hqm.1 hr hq
    exact hne (by rw [← hqm.2, this, hu])

theorem tag_lookup_other_eq_none {u1 u2 : Nat} {s : Store} {t : Tag}
    (hwf : s.wf) (hne : u1 ≠ u2) (ht : t ∈ s.tags) (hu : t.user = u2) :
    TagViewSet.lookup u1 t.id s = none := by
  unfold TagViewSet.lookup
  cases hfind : (TagViewSet.get_queryset u1 s).find? (fun q => q.id == t.id) with
  | none => rfl
  | some q =>
    exfalso
    have hq := List.find?_some hfind
    simp only [beq_iff_eq] at hq
    have hqm := mem_tag_get_queryset.mp (List.mem_of_find?_eq_some hfind)
    have : q = t := tag_id_injective hwf hqm.1 ht hq
    exact hne (by rw [← hqm.2, this, hu])

theorem applyRecipePayload_user (r : Recipe) (p : RecipePayload) :
    (applyRecipePayload r p).user = r.user := rfl

theorem applyRecipePayload_id (r : Recipe) (p : RecipePayload) :
    (applyRecipePayload r p).id = r.id := rfl

theorem lookup_eq_none_of_no_id {u rid : Nat} {s : Store}
    (h : ∀ q ∈ s.recipes, q.id ≠ rid) :
    RecipeViewSet.lookup u rid s = none := by
  unfold RecipeViewSet.lookup
  cases hfind : (RecipeViewSet.get_queryset u s).find? (fun q => q.id == rid) with
  | none => rfl
  | some q =>
    exfalso
    have hq := List.find?_some hfind
    simp only [beq_iff_eq] at hq
    exact h q (mem_get_queryset.mp (List.mem_of_find?_eq_some hfind)).1 hq

theorem tag_lookup_eq_none_of_no_id {u rid : Nat} {s : Store}
    (h : ∀ q ∈ s.tags, q.id ≠ rid) :
    TagViewSet.lookup u rid s = none := by
  unfold TagViewSet.lookup
  cases hfind : (TagViewSet.get_queryset u s).find? (fun q => q.id == rid) with
  | none => rfl
  | some q =>
    exfalso
    have hq := List.find?_some hfind
    simp only [beq_iff_eq] at hq
    exact h q (mem_tag_get_queryset.mp (List.mem_of_find?_eq_some hfind)).1 hq

/-! ### Claims -/

/-- C1: for distinct principals `u1 ≠ u2` and any recipe `r` and tag `t`
owned by `u2`, `u1`'s list never contains the entity (neither the row in
the scoped queryset nor its rendering in the list body), and `u1`'s
get, update and delete on the entity's identifier each return
NotFound (404) — never Forbidden — and leave the store unchanged. -/
theorem C1_cross_principal_isolation
    (u1 u2 : Nat) (s : Store) (r : Recipe) (t : Tag)
    (hwf : s.wf) (hne : u1 ≠ u2)
    (hr : r ∈ s.recipes) (hru : r.user = u2)
    (ht : t ∈ s.tags) (htu : t.user = u2) :
    (r ∉ RecipeViewSet.get_queryset u1 s ∧
      RecipeSerializer r ∉ (RecipeViewSet.get_queryset u1 s).map RecipeSerializer ∧
      RecipeViewSet.retrieveOp u1 r.id s = (Status.notFound404, Body.empty, s) ∧
      (∀ p full, RecipeViewSet.updateOp u1 r.id p full s =
        (Status.notFound404, Body.empty, s)) ∧
      RecipeViewSet.destroyOp u1 r.id s = (Status.notFound404, Body.empty, s)) ∧
    (t ∉ TagViewSet.get_queryset u1 s ∧
      TagSerializer t ∉ (TagViewSet.get_queryset u1 s).map TagSerializer ∧
      TagViewSet.retrieveOp u1 t.id s = (Status.notFound404, Body.empty, s) ∧
      (∀ p full, TagViewSet.updateOp u1 t.id p full s =
        (Status.notFound404, Body.empty, s)) ∧
      TagViewSet.destroyOp u1 t.id s = (Status.notFound404, Body.empty, s)) ∧
    Status.notFound404 ≠ Status.forbidden403 := by
  have hrl := lookup_other_eq_none hwf hne hr hru
  have htl := tag_lookup_other_eq_none hwf hne ht htu
  refine ⟨⟨?_, ?_, ?_, ?_, ?_⟩, ⟨?_, ?_, ?_, ?_, ?_⟩, by decide⟩
  · intro hmem
    exact hne ((mem_get_queryset.mp hmem).2.symm.trans hru)
  · intro hmem
    rcases List.mem_map.mp hmem with ⟨q, hq, hqe⟩
    have hqm := mem_get_queryset.mp hq
    have : q = r :=
      recipe_id_injective hwf hqm.1 hr (congrArg RecipeSummaryView.id hqe)
    exact hne (by rw [← hqm.2, this, hru])
  · simp [RecipeViewSet.retrieveOp, hrl]
  · intro p full
    simp [RecipeViewSet.updateOp, hrl]
  · simp [RecipeViewSet.destroyOp, hrl]
  · intro hmem
    exact hne ((mem_tag_get_queryset.mp hmem).2.symm.trans htu)
  · intro hmem
    rcases List.mem_map.mp hmem with ⟨q, hq, hqe⟩
    have hqm := mem_tag_get_queryset.mp hq
    have : q = t :=
      tag_id_injective hwf hqm.1 ht (congrArg TagView.id hqe)
    exact hne (by rw [← hqm.2, this, htu])
  · simp [TagViewSet.retrieveOp, htl]
  · intro p full
    simp [TagViewSet.updateOp, htl]
  · simp [TagViewSet.destroyOp, htl]

/-- Witness for C1: principal 1 against user 2's concrete recipe and tag. -/
theorem C1_cross_principal_isolation_witness :
    (sIso.wf ∧ (1 : Nat) ≠ 2 ∧ rIso ∈ sIso.recipes ∧ rIso.user = 2 ∧
      tIso ∈ sIso.tags ∧ tIso.user = 2) ∧
    RecipeViewSet.destroyOp 1 rIso.id sIso = (Status.notFound404, Body.empty, sIso) ∧
    TagViewSet.destroyOp 1 tIso.id sIso = (Status.notFound404, Body.empty, sIso) :=
  ⟨⟨by decide, by decide, by decide, by decide, by decide, by decide⟩,
   (C1_cross_principal_isolation 1 2 sIso rIso tIso (by decide) (by decide)
      (by decide) (by decide) (by decide) (by decide)).1.2.2.2.2,
   (C1_cross_principal_isolation 1 2 sIso rIso tIso (by decide) (by decide)
      (by decide) (by decide) (by decide) (by decide)).2.1.2.2.2.2⟩

/-- C2: create persists the owner as the requesting principal regardless
of the payload (every row of the resulting store is an old row or owned
by `u`, and on success the inserted row's owner is `u`); an update never
changes any persisted owner, whatever the payload's `user` key holds; and
a PATCH whose payload carries only a `user` key succeeds with 200 (the
key is silently ignored, not an error). -/
theorem C2_owner_forced_and_immutable
    (u : Nat) (p : RecipePayload) (s : Store) (hwf : s.wf) :
    (∀ r' ∈ (RecipeViewSet.createOp u p s).2.2.recipes,
      r' ∈ s.recipes ∨ r'.user = u) ∧
    ((RecipeViewSet.createOp u p s).1 = Status.created201 →
      (RecipeViewSet.createOp u p s).2.2.recipes =
        s.recipes ++ [recipeFromPayload u s.nextRecipeId p.dropOwner] ∧
      (recipeFromPayload u s.nextRecipeId p.dropOwner).user = u) ∧
    (∀ rid full,
      (RecipeViewSet.updateOp u rid p full s).2.2.recipes.map Recipe.user =
        s.recipes.map Recipe.user) ∧
    (∀ r ∈ s.recipes, r.user = u → ∀ v,
      RecipeViewSet.updateOp u r.id ⟨none, none, none, none, none, some v⟩ false s =
        (Status.ok200, Body.recipeDetail (RecipeDetailSerializer r),
         { s with recipes := updateRow s.recipes r.id r })) := by
  refine ⟨?_, ?_, ?_, ?_⟩
  · intro r' hr'
    by_cases hv : (p.dropOwner.requiredPresent && p.dropOwner.valuesValid) = true
    · simp only [RecipeViewSet.createOp, hv, if_true] at hr'
      rcases List.mem_append.mp hr' with h | h
      · exact Or.inl h
      · right
        rw [List.mem_singleton.mp h]
        rfl
    · simp only [RecipeViewSet.createOp, if_neg hv] at hr'
      exact Or.inl hr'
  · intro hc
    by_cases hv : (p.dropOwner.requiredPresent && p.dropOwner.valuesValid) = true
    · refine ⟨?_, rfl⟩
      simp [RecipeViewSet.createOp, hv]
    · simp only [RecipeViewSet.createOp, if_neg hv] at hc
      exact absurd hc (by decide)
  · intro rid full
    cases hl : RecipeViewSet.lookup u rid s with
    | none => simp [RecipeViewSet.updateOp, hl]
    | some r =>
      have hfacts := lookup_eq_some hl
      by_cases hv : ((!full || p.dropOwner.requiredPresent) && p.dropOwner.valuesValid) = true
      · simp only [RecipeViewSet.updateOp, hl, hv, if_true, updateRow, List.map_map]
        apply List.map_congr_left
        intro q hq
        by_cases hid : (q.id == rid) = true
        · have hqr : q = r :=
            recipe_id_injective hwf hq hfacts.1
              ((beq_iff_eq.mp hid).trans hfacts.2.2.symm)
          rw [Function.comp_apply, if_pos hid, applyRecipePayload_user, hqr]
        · rw [Function.comp_apply, if_neg hid]
      · simp [RecipeViewSet.updateOp, hl, hv]
  · intro r hr hu v
    rw [RecipeViewSet.updateOp, lookup_self hwf hr hu]
    rfl

/-- Witness for C2: user-key-only PATCH by the owner on the concrete
store leaves every persisted owner unchanged. -/
theorem C2_owner_forced_and_immutable_witness :
    sIso.wf ∧
    (RecipeViewSet.updateOp 2 1 ⟨some "X", none, some 3, some 100, none, some 7⟩
        false sIso).2.2.recipes.map Recipe.user = sIso.recipes.map Recipe.user :=
  ⟨by decide,
   (C2_owner_forced_and_immutable 2 ⟨some "X", none, some 3, some 100, none, some 7⟩
      sIso (by decide)).2.2.1 1 false⟩

/-- C3: a PATCH whose payload contains only the title key sets the
recipe's title and leaves link, description, price, time_minutes, owner
and id unchanged; every other row of the store is untouched. -/
theorem C3_patch_title_frame
    (u : Nat) (s : Store) (r : Recipe) (newTitle : String)
    (hwf : s.wf) (hr : r ∈ s.recipes) (hu : r.user = u) :
    RecipeViewSet.updateOp u r.id ⟨some newTitle, none, none, none, none, none⟩ false s =
      (Status.ok200,
       Body.recipeDetail (RecipeDetailSerializer { r with title := newTitle }),
       { s with recipes := updateRow s.recipes r.id { r with title := newTitle } }) ∧
    ({ r with title := newTitle }).title = newTitle ∧
    ({ r with title := newTitle }).link = r.link ∧
    ({ r with title := newTitle }).description = r.description ∧
    ({ r with title := newTitle }).price = r.price ∧
    ({ r with title := newTitle }).time_minutes = r.time_minutes ∧
    ({ r with title := newTitle }).user = r.user ∧
    ({ r with title := newTitle }).id = r.id ∧
    (∀ q ∈ s.recipes, q.id ≠ r.id →
      q ∈ (RecipeViewSet.updateOp u r.id
        ⟨some newTitle, none, none, none, none, none⟩ false s).2.2.recipes) := by
  have hmain : RecipeViewSet.updateOp u r.id
      ⟨some newTitle, none, none, none, none, none⟩ false s =
      (Status.ok200,
       Body.recipeDetail (RecipeDetailSerializer { r with title := newTitle }),
       { s with recipes := updateRow s.recipes r.id { r with title := newTitle } }) := by
    rw [RecipeViewSet.updateOp, lookup_self hwf hr hu]
    rfl
  refine ⟨hmain, rfl, rfl, rfl, rfl, rfl, rfl, rfl, ?_⟩
  intro q hq hne
  rw [hmain]
  unfold updateRow
  exact List.mem_map.mpr ⟨q, hq, by simp [hne]⟩

/-- Witness for C3: title-only PATCH by owner 2 on the concrete store. -/
theorem C3_patch_title_frame_witness :
    (sIso.wf ∧ rIso ∈ sIso.recipes ∧ rIso.user = 2) ∧
    RecipeViewSet.updateOp 2 rIso.id
        ⟨some "New recipe title", none, none, none, none, none⟩ false sIso =
      (Status.ok200,
       Body.recipeDetail (RecipeDetailSerializer { rIso with title := "New recipe title" }),
       { sIso with recipes := updateRow sIso.recipes rIso.id { rIso with title := "New recipe title" } }) :=
  ⟨⟨by decide, by decide, by decide⟩,
   (C3_patch_title_frame 2 sIso rIso "New recipe title"
      (by decide) (by decide) (by decide)).1⟩

/-- C4: serializer choice depends only on the action: the list action
selects the summary serializer and every other action the detail
serializer; accordingly the list body is the summary rendering of the
scoped queryset, while retrieve, create and update respond with detail
renderings. -/
theorem C4_serializer_selection (u : Nat) (s : Store) :
    RecipeViewSet.get_serializer_class Action.list = SerializerClass.summary ∧
    (∀ a, a ≠ Action.list →
      RecipeViewSet.get_serializer_class a = SerializerClass.detail) ∧
    (RecipeViewSet.listOp u s).2.1 =
      Body.recipeList ((RecipeViewSet.get_queryset u s).map RecipeSerializer) ∧
    (∀ rid r, RecipeViewSet.lookup u rid s = some r →
      (RecipeViewSet.retrieveOp u rid s).2.1 =
        Body.recipeDetail (RecipeDetailSerializer r)) ∧
    (∀ p, (RecipeViewSet.createOp u p s).1 = Status.created201 →
      ∃ v, (RecipeViewSet.createOp u p s).2.1 = Body.recipeDetail v) ∧
    (∀ rid p full, (RecipeViewSet.updateOp u rid p full s).1 = Status.ok200 →
      ∃ v, (RecipeViewSet.updateOp u rid p full s).2.1 = Body.recipeDetail v) := by
  refine ⟨rfl, ?_, rfl, ?_, ?_, ?_⟩
  · intro a ha
    cases a
    · exact absurd rfl ha
    all_goals rfl
  · intro rid r h
    simp [RecipeViewSet.retrieveOp, h]
  · intro p hc
    by_cases hv : (p.dropOwner.requiredPresent && p.dropOwner.valuesValid) = true
    · exact ⟨RecipeDetailSerializer (recipeFromPayload u s.nextRecipeId p.dropOwner),
        by simp [RecipeViewSet.createOp, hv]⟩
    · simp only [RecipeViewSet.createOp, if_neg hv] at hc
      exact absurd hc (by decide)
  · intro rid p full hc
    cases hl : RecipeViewSet.lookup u rid s with
    | none =>
      simp only [RecipeViewSet.updateOp, hl] at hc
      exact absurd hc (by decide)
    | some r =>
      by_cases hv : ((!full || p.dropOwner.requiredPresent) && p.dropOwner.valuesValid) = true
      · exact ⟨RecipeDetailSerializer (applyRecipePayload r p.dropOwner),
          by simp [RecipeViewSet.updateOp, hl, hv]⟩
      · simp only [RecipeViewSet.updateOp, hl, if_neg hv] at hc
        exact absurd hc (by decide)

/-- C5: list returns exactly the requesting principal's rows — the
scoped queryset is a permutation of the ownership filter — ordered by
descending id for recipes and descending name for tags; concretely, a
user with tags "Vegan" and "Dessert" receives them in that order. -/
theorem C5_list_scoped_ordered (u : Nat) (s : Store) :
    RecipeViewSet.listOp u s =
      (Status.ok200,
       Body.recipeList ((RecipeViewSet.get_queryset u s).map RecipeSerializer), s) ∧
    List.Perm (RecipeViewSet.get_queryset u s)
      (s.recipes.filter (fun r => r.user == u)) ∧
    (RecipeViewSet.get_queryset u s).Pairwise (fun a b => b.id ≤ a.id) ∧
    TagViewSet.listOp u s =
      (Status.ok200,
       Body.tagList ((TagViewSet.get_queryset u s).map TagSerializer), s) ∧
    List.Perm (TagViewSet.get_queryset u s)
      (s.tags.filter (fun t => t.user == u)) ∧
    (TagViewSet.get_queryset u s).Pairwise (fun a b => b.name ≤ a.name) ∧
    TagViewSet.listOp 7 ⟨[], [⟨1, 7, "Vegan"⟩, ⟨2, 7, "Dessert"⟩], 1, 3⟩ =
      (Status.ok200, Body.tagList [⟨1, "Vegan"⟩, ⟨2, "Dessert"⟩],
       ⟨[], [⟨1, 7, "Vegan"⟩, ⟨2, 7, "Dessert"⟩], 1, 3⟩) := by
  refine ⟨rfl, sortDesc_perm _ _, ?_, rfl, sortDesc_perm _ _, ?_, by decide⟩
  · apply sortDesc_pairwise
    · intro a b h
      exact le_of_lt (of_decide_eq_true h)
    · intro a b h
      exact not_lt.mp (of_decide_eq_false h)
    · intro a b c h1 h2
      exact le_trans h2 h1
  · apply sortDesc_pairwise
    · intro a b h
      exact le_of_lt ((strLt_iff _ _).mp h)
    · intro a b h
      exact not_lt.mp (fun hlt => absurd ((strLt_iff _ _).mpr hlt) (by simp [h]))
    · intro a b c h1 h2
      exact le_trans h2 h1

/-- C6: a request with no (or an invalid) authentication capability gets
Unauthorized 401 with an empty body from either view set, for every
action and payload, and the store comes back untouched — the same
response whatever the store holds, so the outcome is decided before any
handler logic runs. -/
theorem C6_unauthenticated_401 (a : Action) (rid : Nat)
    (p : RecipePayload) (tp : TagPayload) (s : Store) :
    RecipeViewSet.dispatch ⟨none, a, rid, p⟩ s =
      (Status.unauthorized401, Body.empty, s) ∧
    TagViewSet.dispatch ⟨none, a, rid, tp⟩ s =
      (Status.unauthorized401, Body.empty, s) :=
  ⟨rfl, rfl⟩

theorem createOp_error_frame (u : Nat) (p : RecipePayload) (s : Store)
    (h : (RecipeViewSet.createOp u p s).1 ≠ Status.created201) :
    (RecipeViewSet.createOp u p s).2.2 = s := by
  by_cases hv : (p.dropOwner.requiredPresent && p.dropOwner.valuesValid) = true
  · exact absurd (by simp [RecipeViewSet.createOp, hv]) h
  · simp [RecipeViewSet.createOp, hv]

theorem updateOp_error_frame (u rid : Nat) (p : RecipePayload) (full : Bool)
    (s : Store) (h : (RecipeViewSet.updateOp u rid p full s).1 ≠ Status.ok200) :
    (RecipeViewSet.updateOp u rid p full s).2.2 = s := by
  cases hl : RecipeViewSet.lookup u rid s with
  | none => simp [RecipeViewSet.updateOp, hl]
  | some r =>
    by_cases hv : ((!full || p.dropOwner.requiredPresent) && p.dropOwner.valuesValid) = true
    · exact absurd (by simp [RecipeViewSet.updateOp, hl, hv]) h
    · simp [RecipeViewSet.updateOp, hl, hv]

theorem destroyOp_error_frame (u rid : Nat) (s : Store)
    (h : (RecipeViewSet.destroyOp u rid s).1 ≠ Status.noContent204) :
    (RecipeViewSet.destroyOp u rid s).2.2 = s := by
  cases hl : RecipeViewSet.lookup u rid s with
  | none => simp [RecipeViewSet.destroyOp, hl]
  | some r => exact absurd (by simp [RecipeViewSet.destroyOp, hl]) h

theorem tag_updateOp_error_frame (u rid : Nat) (p : TagPayload) (full : Bool)
    (s : Store) (h : (TagViewSet.updateOp u rid p full s).1 ≠ Status.ok200) :
    (TagViewSet.updateOp u rid p full s).2.2 = s := by
  cases hl : TagViewSet.lookup u rid s with
  | none => simp [TagViewSet.updateOp, hl]
  | some t =>
    by_cases hv : (!full || p.dropOwner.requiredPresent) = true
    · exact absurd (by simp [TagViewSet.updateOp, hl, hv]) h
    · simp [TagViewSet.updateOp, hl, hv]

theorem tag_destroyOp_error_frame (u rid : Nat) (s : Store)
    (h : (TagViewSet.destroyOp u rid s).1 ≠ Status.noContent204) :
    (TagViewSet.destroyOp u rid s).2.2 = s := by
  cases hl : TagViewSet.lookup u rid s with
  | none => simp [TagViewSet.destroyOp, hl]
  | some t => exact absurd (by simp [TagViewSet.destroyOp, hl]) h

/-- C7: delete by the owner returns 204 with an empty body and removes
the row, so a subsequent get yields NotFound; delete of a row not owned
by the requester returns NotFound with the row still present; and every
operation of either view set that ends in an error status (404, 400 or
401) leaves the store exactly unchanged — no partial writes on failure. -/
theorem C7_delete_semantics
    (u1 u2 : Nat) (s : Store) (r : Recipe) (t : Tag)
    (hwf : s.wf) (hr : r ∈ s.recipes) (ht : t ∈ s.tags) :
    (r.user = u1 →
      RecipeViewSet.destroyOp u1 r.id s =
        (Status.noContent204, Body.empty,
         { s with recipes := s.recipes.filter (fun q => !(q.id == r.id)) }) ∧
      r ∉ (RecipeViewSet.destroyOp u1 r.id s).2.2.recipes ∧
      RecipeViewSet.retrieveOp u1 r.id (RecipeViewSet.destroyOp u1 r.id s).2.2 =
        (Status.notFound404, Body.empty, (RecipeViewSet.destroyOp u1 r.id s).2.2)) ∧
    (u1 ≠ u2 → r.user = u2 →
      RecipeViewSet.destroyOp u1 r.id s = (Status.notFound404, Body.empty, s) ∧
      r ∈ (RecipeViewSet.destroyOp u1 r.id s).2.2.recipes) ∧
    (t.user = u1 →
      TagViewSet.destroyOp u1 t.id s =
        (Status.noContent204, Body.empty,
         { s with tags := s.tags.filter (fun q => !(q.id == t.id)) }) ∧
      t ∉ (TagViewSet.destroyOp u1 t.id s).2.2.tags) ∧
    (u1 ≠ u2 → t.user = u2 →
      TagViewSet.destroyOp u1 t.id s = (Status.notFound404, Body.empty, s) ∧
      t ∈ (TagViewSet.destroyOp u1 t.id s).2.2.tags) ∧
    (∀ req : RecipeViewSet.Request,
      ((RecipeViewSet.dispatch req s).1 = Status.notFound404 ∨
       (RecipeViewSet.dispatch req s).1 = Status.badRequest400 ∨
       (RecipeViewSet.dispatch req s).1 = Status.unauthorized401) →
      (RecipeViewSet.dispatch req s).2.2 = s) ∧
    (∀ req : TagViewSet.Request,
      ((TagViewSet.dispatch req s).1 = Status.notFound404 ∨
       (TagViewSet.dispatch req s).1 = Status.badRequest400 ∨
       (TagViewSet.dispatch req s).1 = Status.unauthorized401) →
      (TagViewSet.dispatch req s).2.2 = s) := by
  refine ⟨?_, ?_, ?_, ?_, ?_, ?_⟩
  · intro hu
    have hmain : RecipeViewSet.destroyOp u1 r.id s =
        (Status.noContent204, Body.empty,
         { s with recipes := s.recipes.filter (fun q => !(q.id == r.id)) }) := by
      rw [RecipeViewSet.destroyOp, lookup_self hwf hr hu]
    refine ⟨hmain, ?_, ?_⟩
    · rw [hmain]
      intro hmem
      have := (List.mem_filter.mp hmem).2
      simp at this
    · rw [hmain]
      have hnone : RecipeViewSet.lookup u1 r.id
          { s with recipes := s.recipes.filter (fun q => !(q.id == r.id)) } = none := by
        apply lookup_eq_none_of_no_id
        intro q hq
        have := (List.mem_filter.mp hq).2
        simpa using this
      rw [RecipeViewSet.retrieveOp, hnone]
  · intro hne hu
    have hmain : RecipeViewSet.destroyOp u1 r.id s =
        (Status.notFound404, Body.empty, s) := by
      rw [RecipeViewSet.destroyOp, lookup_other_eq_none hwf hne hr hu]
    rw [hmain]
    exact ⟨rfl, hr⟩
  · intro hu
    have hmain : TagViewSet.destroyOp u1 t.id s =
        (Status.noContent204, Body.empty,
         { s with tags := s.tags.filter (fun q => !(q.id == t.id)) }) := by
      rw [TagViewSet.destroyOp, tag_lookup_self hwf ht hu]
    refine ⟨hmain, ?_⟩
    rw [hmain]
    intro hmem
    have := (List.mem_filter.mp hmem).2
    simp at this
  · intro hne hu
    have hmain : TagViewSet.destroyOp u1 t.id s =
        (Status.notFound404, Body.empty, s) := by
      rw [TagViewSet.destroyOp, tag_lookup_other_eq_none hwf hne ht hu]
    rw [hmain]
    exact ⟨rfl, ht⟩
  · rintro ⟨auth, act, rid, p⟩ h
    cases auth with
    | none => rfl
    | some u =>
      cases act with
      | list => rfl
      | retrieve =>
        show (RecipeViewSet.retrieveOp u rid s).2.2 = s
        unfold RecipeViewSet.retrieveOp
        cases RecipeViewSet.lookup u rid s <;> rfl
      | create =>
        have h' : (RecipeViewSet.createOp u p s).1 = Status.notFound404 ∨
            (RecipeViewSet.createOp u p s).1 = Status.badRequest400 ∨
            (RecipeViewSet.createOp u p s).1 = Status.unauthorized401 := h
        exact createOp_error_frame u p s (by
          rcases h' with h' | h' | h' <;> (rw [h']; decide))
      | put =>
        have h' : (RecipeViewSet.updateOp u rid p true s).1 = Status.notFound404 ∨
            (RecipeViewSet.updateOp u rid p true s).1 = Status.badRequest400 ∨
            (RecipeViewSet.updateOp u rid p true s).1 = Status.unauthorized401 := h
        exact updateOp_error_frame u rid p true s (by
          rcases h' with h' | h' | h' <;> (rw [h']; decide))
      | patch =>
        have h' : (RecipeViewSet.updateOp u rid p false s).1 = Status.notFound404 ∨
            (RecipeViewSet.updateOp u rid p false s).1 = Status.badRequest400 ∨
            (RecipeViewSet.updateOp u rid p false s).1 = Status.unauthorized401 := h
        exact updateOp_error_frame u rid p false s (by
          rcases h' with h' | h' | h' <;> (rw [h']; decide))
      | destroy =>
        have h' : (RecipeViewSet.destroyOp u rid s).1 = Status.notFound404 ∨
            (RecipeViewSet.destroyOp u rid s).1 = Status.badRequest400 ∨
            (RecipeViewSet.destroyOp u rid s).1 = Status.unauthorized401 := h
        exact destroyOp_error_frame u rid s (by
          rcases h' with h' | h' | h' <;> (rw [h']; decide))
  · rintro ⟨auth, act, rid, p⟩ h
    cases auth with
    | none => rfl
    | some u =>
      cases act with
      | list => rfl
      | retrieve =>
        show (TagViewSet.retrieveOp u rid s).2.2 = s
        unfold TagViewSet.retrieveOp
        cases TagViewSet.lookup u rid s <;> rfl
      | create => rfl
      | put =>
        have h' : (TagViewSet.updateOp u rid p true s).1 = Status.notFound404 ∨
            (TagViewSet.updateOp u rid p true s).1 = Status.badRequest400 ∨
            (TagViewSet.updateOp u rid p true s).1 = Status.unauthorized401 := h
        exact tag_updateOp_error_frame u rid p true s (by
          rcases h' with h' | h' | h' <;> (rw [h']; decide))
      | patch =>
        have h' : (TagViewSet.updateOp u rid p false s).1 = Status.notFound404 ∨
            (TagViewSet.updateOp u rid p false s).1 = Status.badRequest400 ∨
            (TagViewSet.updateOp u rid p false s).1 = Status.unauthorized401 := h
        exact tag_updateOp_error_frame u rid p false s (by
          rcases h' with h' | h' | h' <;> (rw [h']; decide))
      | destroy =>
        have h' : (TagViewSet.destroyOp u rid s).1 = Status.notFound404 ∨
            (TagViewSet.destroyOp u rid s).1 = Status.badRequest400 ∨
            (TagViewSet.destroyOp u rid s).1 = Status.unauthorized401 := h
        exact tag_destroyOp_error_frame u rid s (by
          rcases h' with h' | h' | h' <;> (rw [h']; decide))

/-- Witness for C7: owner 2 deletes the concrete recipe; 204 and the row
is filtered out of the store. -/
theorem C7_delete_semantics_witness :
    (sIso.wf ∧ rIso ∈ sIso.recipes ∧ tIso ∈ sIso.tags) ∧
    RecipeViewSet.destroyOp 2 rIso.id sIso =
      (Status.noContent204, Body.empty,
       { sIso with recipes := sIso.recipes.filter (fun q => !(q.id == rIso.id)) }) :=
  ⟨⟨by decide, by decide, by decide⟩,
   ((C7_delete_semantics 2 1 sIso rIso tIso (by decide) (by decide)
      (by decide)).1 (by decide)).1⟩

theorem dropOwner_requiredPresent (p : RecipePayload) :
    p.dropOwner.requiredPresent = p.requiredPresent := rfl

theorem dropOwner_valuesValid (p : RecipePayload) :
    p.dropOwner.valuesValid = p.valuesValid := rfl

/-- C8: for a valid create payload, create returns 201 with the detail
rendering of the new record; the record carries the freshly generated id
and the requesting principal as owner, each supplied payload field is
persisted verbatim, and a subsequent get of the returned id yields that
same record (round trip). -/
theorem C8_create_roundtrip
    (u : Nat) (p : RecipePayload) (s : Store) (hwf : s.wf)
    (hreq : p.requiredPresent = true) (hval : p.valuesValid = true) :
    RecipeViewSet.createOp u p s =
      (Status.created201,
       Body.recipeDetail (RecipeDetailSerializer
         (recipeFromPayload u s.nextRecipeId p.dropOwner)),
       { s with recipes := s.recipes ++ [recipeFromPayload u s.nextRecipeId p.dropOwner],
                nextRecipeId := s.nextRecipeId + 1 }) ∧
    (recipeFromPayload u s.nextRecipeId p.dropOwner).user = u ∧
    (recipeFromPayload u s.nextRecipeId p.dropOwner).id = s.nextRecipeId ∧
    (∀ x, p.title = some x →
      (recipeFromPayload u s.nextRecipeId p.dropOwner).title = x) ∧
    (∀ x, p.time_minutes = some x →
      (recipeFromPayload u s.nextRecipeId p.dropOwner).time_minutes = x) ∧
    (∀ x, p.price = some x →
      (recipeFromPayload u s.nextRecipeId p.dropOwner).price = x) ∧
    (∀ x, p.description = some x →
      (recipeFromPayload u s.nextRecipeId p.dropOwner).description = x) ∧
    (∀ x, p.link = some x →
      (recipeFromPayload u s.nextRecipeId p.dropOwner).link = x) ∧
    RecipeViewSet.retrieveOp u s.nextRecipeId (RecipeViewSet.createOp u p s).2.2 =
      (Status.ok200,
       Body.recipeDetail (RecipeDetailSerializer
         (recipeFromPayload u s.nextRecipeId p.dropOwner)),
       (RecipeViewSet.createOp u p s).2.2) := by
  have hv : (p.dropOwner.requiredPresent && p.dropOwner.valuesValid) = true := by
    rw [dropOwner_requiredPresent, dropOwner_valuesValid, hreq, hval]
    rfl
  have hmain : RecipeViewSet.createOp u p s =
      (Status.created201,
       Body.recipeDetail (RecipeDetailSerializer
         (recipeFromPayload u s.nextRecipeId p.dropOwner)),
       { s with recipes := s.recipes ++ [recipeFromPayload u s.nextRecipeId p.dropOwner],
                nextRecipeId := s.nextRecipeId + 1 }) := by
    unfold RecipeViewSet.createOp
    rw [if_pos hv]
  have hwf' : ({ s with
      recipes := s.recipes ++ [recipeFromPayload u s.nextRecipeId p.dropOwner],
      nextRecipeId := s.nextRecipeId + 1 } : Store).wf := by
    obtain ⟨h1, h2, h3, h4⟩ := hwf
    refine ⟨?_, ?_, h3, h4⟩
    · intro q hq
      rcases List.mem_append.mp hq with hq | hq
      · exact Nat.lt_trans (h1 q hq) (Nat.lt_succ_self _)
      · rw [List.mem_singleton.mp hq]
        exact Nat.lt_succ_self _
    · rw [List.pairwise_append]
      refine ⟨h2, List.pairwise_singleton _ _, ?_⟩
      intro a ha b hb
      rw [List.mem_singleton.mp hb]
      exact Nat.ne_of_lt (h1 a ha)
  refine ⟨hmain, rfl, rfl,
    fun x hx => by simp [recipeFromPayload, RecipePayload.dropOwner, hx],
    fun x hx => by simp [recipeFromPayload, RecipePayload.dropOwner, hx],
    fun x hx => by simp [recipeFromPayload, RecipePayload.dropOwner, hx],
    fun x hx => by simp [recipeFromPayload, RecipePayload.dropOwner, hx],
    fun x hx => by simp [recipeFromPayload, RecipePayload.dropOwner, hx],
    ?_⟩
  rw [hmain]
  show RecipeViewSet.retrieveOp u s.nextRecipeId
      { s with recipes := s.recipes ++ [recipeFromPayload u s.nextRecipeId p.dropOwner],
               nextRecipeId := s.nextRecipeId + 1 } =
    (Status.ok200,
     Body.recipeDetail (RecipeDetailSerializer (recipeFromPayload u s.nextRecipeId p.dropOwner)),
     { s with recipes := s.recipes ++ [recipeFromPayload u s.nextRecipeId p.dropOwner],
              nextRecipeId := s.nextRecipeId + 1 })
  have hmem : recipeFromPayload u s.nextRecipeId p.dropOwner ∈
      s.recipes ++ [recipeFromPayload u s.nextRecipeId p.dropOwner] :=
    List.mem_append_right _ (List.mem_singleton_self _)
  have hl : RecipeViewSet.lookup u s.nextRecipeId
      { s with recipes := s.recipes ++ [recipeFromPayload u s.nextRecipeId p.dropOwner],
               nextRecipeId := s.nextRecipeId + 1 } =
      some (recipeFromPayload u s.nextRecipeId p.dropOwner) :=
    lookup_self hwf' hmem rfl
  rw [RecipeViewSet.retrieveOp, hl]

/-- Witness for C8: a valid payload (carrying an owner key that is
dropped) created by principal 1 in the empty store. -/
theorem C8_create_roundtrip_witness :
    ((⟨[], [], 0, 0⟩ : Store).wf ∧
     RecipePayload.requiredPresent ⟨some "Test Recipe", none, some 30, some 500, none, some 9⟩ = true ∧
     RecipePayload.valuesValid ⟨some "Test Recipe", none, some 30, some 500, none, some 9⟩ = true) ∧
    (recipeFromPayload 1 0
      (RecipePayload.dropOwner ⟨some "Test Recipe", none, some 30, some 500, none, some 9⟩)).user = 1 :=
  ⟨⟨by decide, by decide, by decide⟩,
   (C8_create_roundtrip 1 ⟨some "Test Recipe", none, some 30, some 500, none, some 9⟩
      ⟨[], [], 0, 0⟩ (by decide) (by decide) (by decide)).2.1⟩

/-- C9: a full update (PUT) on an owned row succeeds exactly when every
required field is present in the payload (values being valid); omitting a
required field yields 400 and leaves the store unchanged; a payload with
all fields present replaces all of them. -/
theorem C9_full_update_validation
    (u : Nat) (s : Store) (r : Recipe) (p : RecipePayload)
    (hwf : s.wf) (hr : r ∈ s.recipes) (hu : r.user = u)
    (hval : p.valuesValid = true) :
    ((RecipeViewSet.updateOp u r.id p true s).1 = Status.ok200 ↔
      p.requiredPresent = true) ∧
    (p.requiredPresent = false →
      RecipeViewSet.updateOp u r.id p true s = (Status.badRequest400, Body.empty, s)) ∧
    (∀ ttl d tm pr lk ou, p = ⟨some ttl, some d, some tm, some pr, some lk, ou⟩ →
      RecipeViewSet.updateOp u r.id p true s =
        (Status.ok200,
         Body.recipeDetail (RecipeDetailSerializer ⟨r.id, r.user, ttl, d, tm, pr, lk, r.tags⟩),
         { s with recipes := updateRow s.recipes r.id ⟨r.id, r.user, ttl, d, tm, pr, lk, r.tags⟩ })) := by
  have hl := lookup_self hwf hr hu
  refine ⟨?_, ?_, ?_⟩
  · cases hrp : p.requiredPresent with
    | true =>
      simp [RecipeViewSet.updateOp, hl, dropOwner_requiredPresent,
        dropOwner_valuesValid, hrp, hval]
    | false =>
      simp [RecipeViewSet.updateOp, hl, dropOwner_requiredPresent,
        dropOwner_valuesValid, hrp, hval]
  · intro hrp
    simp [RecipeViewSet.updateOp, hl, dropOwner_requiredPresent,
      dropOwner_valuesValid, hrp, hval]
  · intro ttl d tm pr lk ou hp
    subst hp
    have hv : ((!true ||
        (RecipePayload.dropOwner ⟨some ttl, some d, some tm, some pr, some lk, ou⟩).requiredPresent) &&
        (RecipePayload.dropOwner ⟨some ttl, some d, some tm, some pr, some lk, ou⟩).valuesValid) = true := by
      rw [dropOwner_requiredPresent, dropOwner_valuesValid, hval]
      rfl
    simp only [RecipeViewSet.updateOp, hl, hv, if_true]
    rfl

/-- Witness for C9: a full payload PUT by owner 2 on the concrete store
replaces every field. -/
theorem C9_full_update_validation_witness :
    (sIso.wf ∧ rIso ∈ sIso.recipes ∧ rIso.user = 2 ∧
     RecipePayload.valuesValid ⟨some "New recipe title", some "New recipe description",
       some 30, some 500, some "http://example.com/new_recipe.pdf", none⟩ = true) ∧
    RecipeViewSet.updateOp 2 rIso.id
        ⟨some "New recipe title", some "New recipe description", some 30, some 500,
         some "http://example.com/new_recipe.pdf", none⟩ true sIso =
      (Status.ok200, Body.recipeDetail (RecipeDetailSerializer rFull),
       { sIso with recipes := updateRow sIso.recipes rIso.id rFull }) :=
  ⟨⟨by decide, by decide, by decide, by decide⟩,
   (C9_full_update_validation 2 sIso rIso
      ⟨some "New recipe title", some "New recipe description", some 30, some 500,
       some "http://example.com/new_recipe.pdf", none⟩
      (by decide) (by decide) (by decide) (by decide)).2.2
      "New recipe title" "New recipe description" 30 500
      "http://example.com/new_recipe.pdf" none rfl⟩

/-- C10: a PATCH with payload {name := N} on an owned tag returns 200 and
persists a tag with name N and the identifier and owner unchanged. -/
theorem C10_tag_rename
    (u : Nat) (s : Store) (t : Tag) (n : String)
    (hwf : s.wf) (ht : t ∈ s.tags) (hu : t.user = u) :
    TagViewSet.updateOp u t.id ⟨some n, none⟩ false s =
      (Status.ok200, Body.tagDetail (TagSerializer ⟨t.id, t.user, n⟩),
       { s with tags := updateTagRow s.tags t.id ⟨t.id, t.user, n⟩ }) ∧
    (⟨t.id, t.user, n⟩ : Tag) ∈
      (TagViewSet.updateOp u t.id ⟨some n, none⟩ false s).2.2.tags ∧
    (Tag.mk t.id t.user n).name = n ∧
    (Tag.mk t.id t.user n).id = t.id ∧
    (Tag.mk t.id t.user n).user = t.user := by
  have hmain : TagViewSet.updateOp u t.id ⟨some n, none⟩ false s =
      (Status.ok200, Body.tagDetail (TagSerializer ⟨t.id, t.user, n⟩),
       { s with tags := updateTagRow s.tags t.id ⟨t.id, t.user, n⟩ }) := by
    rw [TagViewSet.updateOp, tag_lookup_self hwf ht hu]
    rfl
  refine ⟨hmain, ?_, rfl, rfl, rfl⟩
  rw [hmain]
  show (⟨t.id, t.user, n⟩ : Tag) ∈ updateTagRow s.tags t.id ⟨t.id, t.user, n⟩
  unfold updateTagRow
  exact List.mem_map.mpr ⟨t, ht, by simp⟩

/-- Witness for C10: owner 2 renames the concrete tag. -/
theorem C10_tag_rename_witness :
    (sIso.wf ∧ tIso ∈ sIso.tags ∧ tIso.user = 2) ∧
    TagViewSet.updateOp 2 tIso.id ⟨some "New Tag Name", none⟩ false sIso =
      (Status.ok200, Body.tagDetail (TagSerializer ⟨tIso.id, tIso.user, "New Tag Name"⟩),
       { sIso with tags := updateTagRow sIso.tags tIso.id ⟨tIso.id, tIso.user, "New Tag Name"⟩ }) :=
  ⟨⟨by decide, by decide, by decide⟩,
   (C10_tag_rename 2 sIso tIso "New Tag Name" (by decide) (by decide) (by decide)).1⟩

end RecipeApp
